import Mathlib

set_option maxRecDepth 8000

/-!
Verification of the Gemini Discord bot (bot.py) against its specification.

The development shallowly embeds the bot logic in Lean: Python strings become
Lean strings (ASCII semantics for the case and whitespace operations the bot
uses), the Discord and Gemini collaborators become explicit parameters
(attachment contents and an LLM oracle), and the message handler becomes a
pure function from a history map and an incoming message to the updated map
and the ordered list of outbound messages.
-/

namespace GeminiBot

/-! ### Python string primitives (ASCII fragment) -/

/-- The ASCII characters Python treats as whitespace for `str.strip` and
`str.split`: space, tab, newline, vertical tab, form feed, carriage return. -/
def isPySpace (c : Char) : Bool :=
  c.toNat == 32 || c.toNat == 9 || c.toNat == 10 || c.toNat == 13 ||
    c.toNat == 11 || c.toNat == 12

/-- Leading-whitespace removal, as in Python `str.lstrip()`. -/
def pyStripL (cs : List Char) : List Char := cs.dropWhile isPySpace

/-- Trailing-whitespace removal, as in Python `str.rstrip()`. -/
def pyStripR (cs : List Char) : List Char :=
  (cs.reverse.dropWhile isPySpace).reverse

/-- Both-ends whitespace removal on character lists. -/
def pyStripChars (cs : List Char) : List Char := pyStripL (pyStripR cs)

/-- Python `str.strip()` (ASCII whitespace). -/
def pyStrip (s : String) : String := ⟨pyStripChars s.data⟩

/-- Python `str.lower()` (ASCII letters; `Char.toLower` maps exactly A-Z). -/
def pyLower (s : String) : String := ⟨s.data.map Char.toLower⟩

/-- Worker for `pyWords`: `acc` is the current word accumulated in reverse. -/
def pyWordsAux : List Char → List Char → List (List Char)
  | [], acc => if acc = [] then [] else [acc.reverse]
  | c :: cs, acc =>
    if isPySpace c then
      if acc = [] then pyWordsAux cs [] else acc.reverse :: pyWordsAux cs []
    else
      pyWordsAux cs (c :: acc)

/-- Python `str.split()` with no separator: maximal runs of non-whitespace. -/
def pyWords (cs : List Char) : List (List Char) := pyWordsAux cs []

/-- Python `str.startswith(pre)`. -/
def pyStartsWith (s pre : String) : Bool := pre.data.isPrefixOf s.data

/-- Python `str.endswith(suf)`. -/
def pyEndsWith (s suf : String) : Bool := suf.data.isSuffixOf s.data

/-- Python `pat in s` (substring containment). -/
def containsSub (s pat : String) : Bool :=
  (List.range (s.data.length + 1)).any fun i => pat.data.isPrefixOf (s.data.drop i)

/-- Worker for `pyReplace`; the fuel argument starts at the length of the list
and bounds the recursion (each step consumes at least one character). -/
def pyReplaceAux (pat rep : List Char) : Nat → List Char → List Char
  | _, [] => []
  | 0, c :: cs => c :: cs
  | fuel + 1, c :: cs =>
    if pat ≠ [] ∧ pat.isPrefixOf (c :: cs) then
      rep ++ pyReplaceAux pat rep fuel ((c :: cs).drop pat.length)
    else
      c :: pyReplaceAux pat rep fuel cs

/-- Python `str.replace(pat, rep)`: leftmost non-overlapping occurrences.
(For the empty pattern Python would interleave `rep` everywhere; the bot only
replaces the nonempty mention token, and this model leaves the string
unchanged in that unused case.) -/
def pyReplace (pat rep cs : List Char) : List Char :=
  pyReplaceAux pat rep cs.length cs

/-- Python `l[-n:]` for `n > 0`: the suffix of the most recent `n` elements. -/
def pyTakeLast (n : Nat) (l : List α) : List α := l.drop (l.length - n)

/-- Python truthiness of an `Optional[str]`: `None` and `""` are falsy. -/
def pyTruthy : Option String → Bool
  | none => false
  | some s => s ≠ ""

/-- A regex word character `\w` (ASCII fragment): `[a-zA-Z0-9_]`. -/
def isWordChar (c : Char) : Bool := c.isAlphanum || c == '_'

/-! ### Constants (bot.py lines 36-37) -/

/-- Max number of message pairs (user + assistant) kept in history. -/
def MAX_HISTORY_LENGTH : Nat := 8

/-- Max characters for Discord messages. -/
def DISCORD_MAX_CHARS : Nat := 2000

/-! ### Utility functions (bot.py lines 51-127) -/

/-- `split_message` (bot.py 51-53): the Python comprehension
`[text[i:i+limit] for i in range(0, len(text), limit)]`. -/
def split_message (text : String) (limit : Nat) : List String :=
  (List.range ((text.length + limit - 1) / limit)).map fun k =>
    ⟨(text.data.drop (k * limit)).take limit⟩

/-- The fixed question starters of `is_simple_question` (bot.py 63). -/
def simple_keywords : List String :=
  ["what is", "who is", "when is", "where is", "how many", "define"]

/-- `is_simple_question` (bot.py 56-64). -/
def is_simple_question (content : String) : Bool :=
  let c := pyStrip (pyLower content)
  if (pyWords c.data).length < 10 then true
  else simple_keywords.any fun keyword => pyStartsWith c keyword

/-- Matches `(image|picture|art)\b` (case-insensitive) at the head of `cs`. -/
def matchKeywordAt (cs : List Char) : Bool :=
  ["image", "picture", "art"].any fun kw =>
    ((cs.take kw.length).map Char.toLower == kw.data) &&
      (match cs.drop kw.length with
       | [] => true
       | c :: _ => !isWordChar c)

/-- `is_image_generation_request` (bot.py 67-70): Python
`re.search(r'^(generate|create|draw)\s+.*\b(image|picture|art)\b', content,
re.IGNORECASE)`.  A match decomposes the text as a leading verb, then one or
more whitespace characters (positions `1..i`), then any characters other than
newline (positions `i..j`), then a keyword preceded and followed by a word
boundary. -/
def is_image_generation_request (content : String) : Bool :=
  ["generate", "create", "draw"].any fun verb =>
    let cs := content.data
    ((cs.take verb.length).map Char.toLower == verb.data) &&
      (let rest := cs.drop verb.length
       (List.range (rest.length + 1)).any fun j =>
         (List.range' 1 j).any fun i =>
           ((rest.take i).all isPySpace) &&
             (((rest.drop i).take (j - i)).all fun c => !(c == '\n')) &&
             (match rest.get? (j - 1) with
              | some c => !isWordChar c
              | none => false) &&
             matchKeywordAt (rest.drop j))

/-- The page-accumulation step of the extraction loop (bot.py 79-82): a page
with text appends it plus a newline, an empty page contributes nothing. -/
def pageFold (acc page_text : String) : String :=
  if page_text ≠ "" then acc ++ page_text ++ "\n" else acc

/-- `extract_text_from_pdf` (bot.py 73-86).  The PDF collaborator is modelled
by its observable outcome: `none` when `PyPDF2.PdfReader` raises (the caught
exception), `some pages` for the per-page `extract_text()` results, an empty
string standing for a page with no text layer. -/
def extract_text_from_pdf (pdf : Option (List String)) : Option String :=
  match pdf with
  | none => none
  | some pages =>
    let full_text := pages.foldl pageFold ""
    if pyStrip full_text = "" then none else some (pyStrip full_text)

/-- The fixed summarization instruction (bot.py 92-94). -/
def summaryInstruction : String :=
  "Summarize the following document briefly, focusing on main points:\n\n"

/-- `summarize_text` (bot.py 89-99); `llm` is the Gemini `generate_content`
collaborator, failing with the text of the raised exception. -/
def summarize_text (llm : String → Except String String) (text : String) : Option String :=
  match llm (summaryInstruction ++ ⟨text.data.take 2000⟩) with
  | .ok r => some (pyStrip r)
  | .error _ => none

/-! ### Prompt construction (bot.py 102-127) -/

/-- Role tag of a conversation turn (spec data model). -/
inductive Role where
  | system
  | user
  | assistant
deriving DecidableEq

/-- A role-tagged text entry, Python `{"role": ..., "content": ...}`. -/
structure Turn where
  role : Role
  content : String
deriving DecidableEq

/-- System instruction chosen when `is_simple` is true (bot.py 106-109). -/
def simpleInstruction : String :=
  "You are a helpful assistant. Provide clear and complete answers. " ++
    "For simple questions, respond in 2-3 sentences under 350 chars. " ++
    "For others, use a natural length, not too short or overly long."

/-- System instruction chosen when `is_simple` is false (bot.py 110-113). -/
def normalInstruction : String :=
  "You are a helpful assistant. Provide clear and complete answers with a natural length—" ++
    "not too short, but not overly long. Aim for a balanced, informative response."

/-- One line of the combined prompt (bot.py 120-126). -/
def renderTurn (t : Turn) : String :=
  match t.role with
  | .system => "System: " ++ t.content ++ "\n"
  | .user => "User: " ++ t.content ++ "\n"
  | .assistant => "Assistant: " ++ t.content ++ "\n"

/-- `build_prompt` (bot.py 102-127): system turn, the windowed history
`history[-MAX_HISTORY_LENGTH * 2:]`, then the current user turn, folded into
one text block line by line. -/
def build_prompt (history : List Turn) (user_prompt : String) (is_simple : Bool) : String :=
  let context_messages : List Turn :=
    Turn.mk .system (if is_simple then simpleInstruction else normalInstruction)
      :: (pyTakeLast (MAX_HISTORY_LENGTH * 2) history ++ [Turn.mk .user user_prompt])
  context_messages.foldl (fun acc msg => acc ++ renderTurn msg) ""

/-! ### The message dispatcher (bot.py 137-229) -/

/-- An incoming attachment: its filename and, for PDFs, the observable outcome
of `await attachment.read()` followed by parsing — `.error e` when the read
raises `e`, `.ok none` when the parser raises, `.ok (some pages)` for the
extracted pages. -/
structure Attachment where
  filename : String
  content : Except String (Option (List String))

/-- An incoming Discord message, reduced to the fields the handler reads. -/
structure Message where
  authorIsBot : Bool
  authorId : Nat
  channelId : Nat
  content : String
  mentionedBot : Bool
  replyToBot : Bool
  attachments : List Attachment

/-- The external collaborators: the bot identity (`client.user.id`) and the
Gemini `generate_content` call. -/
structure Env where
  botId : Nat
  llm : String → Except String String

/-- The per-user-per-channel history store (`conversation_history`,
a `defaultdict(list)`). -/
def HistMap : Type := String → List Turn

/-- Point update of the history store. -/
def updateMap (st : HistMap) (k : String) (v : List Turn) : HistMap :=
  fun q => if q = k then v else st q

/-- The mention token `f"<@{client.user.id}>"` (bot.py 149). -/
def mentionToken (env : Env) : String := "<@" ++ toString env.botId ++ ">"

/-- History key `f"{message.author.id}_{message.channel.id}"` (bot.py 143). -/
def history_key (msg : Message) : String :=
  toString msg.authorId ++ "_" ++ toString msg.channelId

/-- Trigger evaluation (bot.py 144-153): mention strips the token and
processes; a reply to the bot processes with the prompt unchanged. -/
def initial_prompt_and_flag (env : Env) (msg : Message) : String × Bool :=
  let prompt := pyStrip msg.content
  if msg.mentionedBot then
    (pyStrip ⟨pyReplace (mentionToken env).data [] prompt.data⟩, true)
  else if msg.replyToBot then
    (prompt, true)
  else
    (prompt, false)

/-- The image-filename test of bot.py 176. -/
def isImageFilename (name : String) : Bool :=
  pyEndsWith (pyLower name) ".jpg" || pyEndsWith (pyLower name) ".jpeg" ||
    pyEndsWith (pyLower name) ".png"

/-- The attachment loop (bot.py 156-180).  `.error t` aborts the turn after
sending the single message `t`; `.ok` carries the possibly updated prompt and
flag and the PDF summary, mirroring the `break`s of the loop. -/
def process_attachments (env : Env) (prompt : String) (should_process : Bool) :
    List Attachment → Except String (String × Bool × Option String)
  | [] => .ok (prompt, should_process, none)
  | a :: rest =>
    if pyEndsWith (pyLower a.filename) ".pdf" then
      match a.content with
      | .error e => .error ("Error processing PDF: " ++ e)
      | .ok pdf =>
        match extract_text_from_pdf pdf with
        | none => .error "Could not extract text from PDF."
        | some pdf_text =>
          match summarize_text env.llm pdf_text with
          | none => .error "Failed to summarize PDF content."
          | some s =>
            if s = "" then .error "Failed to summarize PDF content."
            else .ok (prompt, should_process, some s)
    else if isImageFilename a.filename then
      .ok ("Image uploaded: " ++ a.filename ++ " (analysis not supported)", true, none)
    else
      process_attachments env prompt should_process rest

/-- PDF-context framing of the prompt (bot.py 196-199); the conditional is
Python truthiness of the optional summary. -/
def pdf_context_prompt (pdf_summary : Option String) (prompt : String) : String :=
  if pyTruthy pdf_summary then
    "Context from attached PDF document:\n" ++ pdf_summary.getD "" ++
      "\n\nUser question:\n" ++ prompt
  else prompt

/-- The history update of the successful LLM branch (bot.py 211-217): extend
by the (user, assistant) pair, then truncate to the last
`MAX_HISTORY_LENGTH * 2` turns when longer. -/
def append_and_truncate (h : List Turn) (user_text assistant_text : String) : List Turn :=
  let extended := h ++ [Turn.mk .user user_text, Turn.mk .assistant assistant_text]
  if MAX_HISTORY_LENGTH * 2 < extended.length then
    pyTakeLast (MAX_HISTORY_LENGTH * 2) extended
  else extended

/-- The fixed refusal sent for image-generation requests (bot.py 187-190). -/
def image_gen_reply : String :=
  "Image generation not supported with Gemini 1.5 Flash. " ++
    "Contact administrator to enable a compatible model."

/-- The error reply of the failed LLM branch (bot.py 226-229). -/
def gemini_error_reply (e : String) : String :=
  if containsSub (pyLower e) "quota" || containsSub (pyLower e) "rate" then
    "Gemini API quota exceeded. Try again later."
  else
    "Error with Gemini API: " ++ e

/-- The processing block guarded by `should_process and prompt`
(bot.py 184-229). -/
def dispatch_prompt (env : Env) (st : HistMap) (key : String) (prompt : String)
    (pdf_summary : Option String) : HistMap × List String :=
  if is_image_generation_request prompt then
    (updateMap st key (st key ++
        [Turn.mk .user prompt, Turn.mk .assistant "Image generation not supported."]),
      [image_gen_reply])
  else
    let full_prompt := pdf_context_prompt pdf_summary prompt
    let is_simple := is_simple_question prompt
    let combined_prompt := build_prompt (st key) full_prompt is_simple
    match env.llm combined_prompt with
    | .ok rtext =>
      let reply := pyStrip rtext
      (updateMap st key (append_and_truncate (st key) full_prompt reply),
        split_message reply DISCORD_MAX_CHARS)
    | .error e => (st, [gemini_error_reply e])

/-- `on_message` (bot.py 137-229): the full event handler, returning the
updated history store and the outbound messages in send order. -/
def on_message (env : Env) (st : HistMap) (msg : Message) : HistMap × List String :=
  if msg.authorIsBot then (st, [])
  else
    let key := history_key msg
    let ps := initial_prompt_and_flag env msg
    match process_attachments env ps.1 ps.2 msg.attachments with
    | .error t => (st, [t])
    | .ok (prompt2, sp2, pdfSum) =>
      if sp2 ∧ prompt2 ≠ "" then dispatch_prompt env st key prompt2 pdfSum
      else (st, [])

/-! ### Statement-side definitions (from the specification text) -/

/-- One step of newline-joining for the spec reading of the extractor. -/
def sepFold (acc q : String) : String := acc ++ "\n" ++ q

/-- The spec reading of the PDF extractor output: the nonempty per-page texts
joined by newline, trimmed; failure when the result is empty. -/
def extract_text_spec (pages : List String) : Option String :=
  let joined :=
    match pages.filter (fun p => p ≠ "") with
    | [] => ""
    | p :: ps => ps.foldl sepFold p
  if pyStrip joined = "" then none else some (pyStrip joined)

/-- The prompt shape asserted by the spec sentence for claim C8: the
instruction line, then EVERY historical turn rendered, then the user turn. -/
def build_prompt_claim_all (history : List Turn) (user_prompt : String)
    (is_simple : Bool) : String :=
  renderTurn (Turn.mk .system (if is_simple then simpleInstruction else normalInstruction)) ++
    String.join (history.map renderTurn) ++ renderTurn (Turn.mk .user user_prompt)

/-- A sequence of logical exchanges flattened into history turns, user turn
then assistant turn per pair, in original order. -/
def flattenPairs (pairs : List (String × String)) : List Turn :=
  pairs.flatMap fun p => [Turn.mk .user p.1, Turn.mk .assistant p.2]

/-! ### General helper lemmas -/

theorem mk_data (cs : List Char) : (String.mk cs).data = cs := rfl

theorem mk_length (cs : List Char) : (String.mk cs).length = cs.length := rfl

theorem data_foldl_concat (l : List String) (a : String) :
    (l.foldl (fun r s => r ++ s) a).data = a.data ++ (l.map String.data).flatten := by
  induction l generalizing a with
  | nil => simp
  | cons s l ih => simp [ih, List.append_assoc]

theorem data_join (l : List String) :
    (String.join l).data = (l.map String.data).flatten := by
  simp [String.join, data_foldl_concat]

theorem join_cons (s : String) (l : List String) :
    String.join (s :: l) = s ++ String.join l :=
  String.ext (by simp [data_join])

/-- Generalized unfolding of the prompt-rendering fold of `build_prompt`. -/
theorem foldl_render_data (l : List Turn) (acc : String) :
    (l.foldl (fun a t => a ++ renderTurn t) acc).data =
      acc.data ++ ((l.map renderTurn).map String.data).flatten := by
  induction l generalizing acc with
  | nil => simp
  | cons t l ih => simp [ih, List.append_assoc]

/-- Structural shape of `build_prompt`: instruction line, rendered window,
user line. -/
theorem build_prompt_eq (h : List Turn) (u : String) (f : Bool) :
    build_prompt h u f =
      renderTurn (Turn.mk .system (if f then simpleInstruction else normalInstruction)) ++
        String.join ((pyTakeLast (MAX_HISTORY_LENGTH * 2) h).map renderTurn) ++
        renderTurn (Turn.mk .user u) := by
  apply String.ext
  simp [build_prompt, foldl_render_data, data_join, List.append_assoc]

theorem pyTakeLast_of_le {l : List α} {n : Nat} (h : l.length ≤ n) :
    pyTakeLast n l = l := by
  unfold pyTakeLast
  rw [Nat.sub_eq_zero_of_le h, List.drop_zero]

theorem pyTakeLast_idem (n : Nat) (l : List α) :
    pyTakeLast n (pyTakeLast n l) = pyTakeLast n l := by
  apply pyTakeLast_of_le
  simp [pyTakeLast]
  omega

theorem length_pyTakeLast (n : Nat) (l : List α) :
    (pyTakeLast n l).length = min l.length n := by
  simp [pyTakeLast]
  omega

/-! ### Claim theorems -/

/-- C9: a message whose author is flagged as a bot identity produces no
outbound message and no history mutation, regardless of content. -/
theorem C9_bot_ignored :
    ∀ (env : Env) (st : HistMap) (msg : Message),
      msg.authorIsBot = true → on_message env st msg = (st, []) := by
  intro env st msg h
  simp [on_message, h]

theorem C9_bot_ignored_witness :
    on_message ⟨1, fun _ => .error ""⟩ (fun _ => [])
      ⟨true, 2, 3, "hi", true, true, []⟩ = ((fun _ => []), []) :=
  C9_bot_ignored _ _ _ rfl

/-- C10: the prompt builder renders only the most recent
`min (length h) (2 * MAX_PAIRS)` turns of the history; turns older than the
window never reach the combined prompt. -/
theorem C10_window :
    ∀ (h : List Turn) (u : String) (f : Bool),
      build_prompt h u f = build_prompt (pyTakeLast (MAX_HISTORY_LENGTH * 2) h) u f ∧
      (pyTakeLast (MAX_HISTORY_LENGTH * 2) h).length = min h.length (MAX_HISTORY_LENGTH * 2) := by
  intro h u f
  constructor
  · rw [build_prompt_eq, build_prompt_eq, pyTakeLast_idem]
  · rw [length_pyTakeLast]

/-- C8 counterexample: for a 17-turn history the combined prompt differs from
the claim reading that renders EVERY historical turn (the oldest turn is
dropped by the window). -/
theorem C8_counterexample :
    build_prompt ((List.range 17).map fun i => Turn.mk .user (toString i)) "hi" true ≠
      build_prompt_claim_all ((List.range 17).map fun i => Turn.mk .user (toString i))
        "hi" true := by decide

/-- C8 (amended): the combined prompt is exactly the concatenation, in order,
of the selected system instruction line, each turn of the most recent
`2 * MAX_PAIRS`-turn window of the history rendered one per line in original
order, then the current user turn rendered the same way. -/
theorem C8_prompt_structure :
    ∀ (h : List Turn) (u : String) (f : Bool),
      build_prompt h u f =
        renderTurn (Turn.mk .system (if f then simpleInstruction else normalInstruction)) ++
          String.join ((pyTakeLast (MAX_HISTORY_LENGTH * 2) h).map renderTurn) ++
          renderTurn (Turn.mk .user u) :=
  fun h u f => build_prompt_eq h u f

/-! ### History truncation lemmas (claim C1) -/

theorem pyTakeLast_append_left (n : Nat) (xs ys : List α) :
    pyTakeLast n (pyTakeLast n xs ++ ys) = pyTakeLast n (xs ++ ys) := by
  by_cases hn : n ≤ xs.length
  · simp only [pyTakeLast, List.length_append, List.length_drop,
      List.drop_append_eq_append_drop, List.drop_drop]
    congr 1
    · congr 1
      omega
    · congr 1
      omega
  · rw [pyTakeLast_of_le (show xs.length ≤ n by omega)]

theorem append_and_truncate_eq (h : List Turn) (u a : String) :
    append_and_truncate h u a =
      pyTakeLast (MAX_HISTORY_LENGTH * 2)
        (h ++ [Turn.mk .user u, Turn.mk .assistant a]) := by
  unfold append_and_truncate
  dsimp only
  split
  · rfl
  · next hle => exact (pyTakeLast_of_le (by omega)).symm

theorem flattenPairs_append (ps qs : List (String × String)) :
    flattenPairs (ps ++ qs) = flattenPairs ps ++ flattenPairs qs := by
  simp [flattenPairs]

theorem flattenPairs_length (ps : List (String × String)) :
    (flattenPairs ps).length = 2 * ps.length := by
  induction ps with
  | nil => rfl
  | cons p ps ih => simp [flattenPairs] at ih ⊢; omega

theorem pyTakeLast_flattenPairs (m : Nat) (ps : List (String × String)) :
    pyTakeLast (2 * m) (flattenPairs ps) = flattenPairs (pyTakeLast m ps) := by
  by_cases hm : m ≤ ps.length
  · conv_lhs => rw [← List.take_append_drop (ps.length - m) ps]
    rw [flattenPairs_append]
    have hlen : (flattenPairs (ps.take (ps.length - m)) ++
        flattenPairs (ps.drop (ps.length - m))).length - 2 * m =
        (flattenPairs (ps.take (ps.length - m))).length := by
      simp [flattenPairs_length, List.length_take, List.length_drop]
      omega
    rw [pyTakeLast, hlen, List.drop_left]
    rfl
  · rw [pyTakeLast_of_le (show ps.length ≤ m by omega),
      pyTakeLast_of_le (by rw [flattenPairs_length]; omega)]

theorem foldl_append_and_truncate :
    ∀ (ps : List (String × String)) (h : List Turn), ps ≠ [] →
      ps.foldl (fun acc p => append_and_truncate acc p.1 p.2) h =
        pyTakeLast (MAX_HISTORY_LENGTH * 2) (h ++ flattenPairs ps)
  | [], _, hne => absurd rfl hne
  | [p], h, _ => by
    simp only [List.foldl_cons, List.foldl_nil, append_and_truncate_eq, flattenPairs,
      List.flatMap_cons, List.flatMap_nil, List.append_nil]
  | p :: q :: ps, h, _ => by
    rw [List.foldl_cons, foldl_append_and_truncate (q :: ps) _ (by simp),
      append_and_truncate_eq, pyTakeLast_append_left]
    rw [show flattenPairs (p :: q :: ps) =
        [Turn.mk .user p.1, Turn.mk .assistant p.2] ++ flattenPairs (q :: ps) by
      simp [flattenPairs]]
    rw [List.append_assoc]

/-- C1 counterexample: the claim asserts the stored history never exceeds
`2 * MAX_PAIRS = 16` turns after ANY history-mutating step of the dispatcher,
but nine image-generation messages (each appends a synthetic pair without
truncating, bot.py 191-194) leave 18 turns under the key. -/
theorem C1_counterexample :
    MAX_HISTORY_LENGTH * 2 <
      (((fun st => (on_message ⟨1, fun _ => .error ""⟩ st
            ⟨false, 2, 3, "generate art", false, true, []⟩).1)^[9]
          (fun _ => [])) "2_3").length := by decide

/-- C1 (amended): after the append-then-truncate step of the successful LLM
branch (bot.py 211-217) the keyed history never exceeds `2 * MAX_PAIRS`
turns, and after N > MAX_PAIRS pairs appended through that step it holds
exactly the MAX_PAIRS most-recently-appended pairs in original order; the
image-generation branch appends without truncating and is not bounded. -/
theorem C1_history_bound :
    (∀ (h : List Turn) (u a : String),
        (append_and_truncate h u a).length ≤ MAX_HISTORY_LENGTH * 2) ∧
    (∀ pairs : List (String × String), MAX_HISTORY_LENGTH < pairs.length →
        pairs.foldl (fun acc p => append_and_truncate acc p.1 p.2) [] =
          flattenPairs (pyTakeLast MAX_HISTORY_LENGTH pairs)) := by
  constructor
  · intro h u a
    unfold append_and_truncate
    dsimp only
    split
    · next hlt => rw [length_pyTakeLast]; omega
    · next hle => omega
  · intro pairs hp
    rw [foldl_append_and_truncate pairs [] (by rintro rfl; simp at hp),
      List.nil_append, show MAX_HISTORY_LENGTH * 2 = 2 * MAX_HISTORY_LENGTH by omega,
      pyTakeLast_flattenPairs]

theorem C1_history_bound_witness :
    MAX_HISTORY_LENGTH <
      ([("a", "b"), ("c", "d"), ("e", "f"), ("g", "h"), ("i", "j"),
        ("k", "l"), ("m", "n"), ("o", "p"), ("q", "r")] :
        List (String × String)).length ∧
    ([("a", "b"), ("c", "d"), ("e", "f"), ("g", "h"), ("i", "j"),
        ("k", "l"), ("m", "n"), ("o", "p"), ("q", "r")] :
        List (String × String)).foldl
        (fun acc p => append_and_truncate acc p.1 p.2) [] =
      flattenPairs (pyTakeLast MAX_HISTORY_LENGTH
        [("a", "b"), ("c", "d"), ("e", "f"), ("g", "h"), ("i", "j"),
          ("k", "l"), ("m", "n"), ("o", "p"), ("q", "r")]) :=
  ⟨by decide, C1_history_bound.2 _ (by decide)⟩

/-! ### Chunking lemmas (claim C4) -/

theorem chunks_flatten (L : Nat) :
    ∀ (c : Nat) (l : List Char), l.length ≤ c * L →
      ((List.range c).map fun k => (l.drop (k * L)).take L).flatten = l := by
  intro c
  induction c with
  | zero =>
    intro l hl
    simp only [Nat.zero_mul, Nat.le_zero, List.length_eq_zero] at hl
    simp [hl]
  | succ c ih =>
    intro l hl
    rw [List.range_succ_eq_map]
    simp only [List.map_cons, List.flatten_cons, List.map_map, Nat.zero_mul,
      List.drop_zero]
    have hshift : ∀ k, (l.drop ((k + 1) * L)).take L =
        ((l.drop L).drop (k * L)).take L := by
      intro k
      rw [List.drop_drop]
      congr 2
      ring
    rw [show (List.range c).map ((fun k => (l.drop (k * L)).take L) ∘ Nat.succ) =
        (List.range c).map fun k => ((l.drop L).drop (k * L)).take L from
      List.map_congr_left fun k _ => hshift k]
    have hcl : (c + 1) * L = c * L + L := by ring
    rw [ih (l.drop L) (by simp only [List.length_drop]; omega)]
    exact List.take_append_drop L l

/-- C4: every chunk of `split_message text 2000` has at most 2000 characters,
their concatenation in order reconstructs the text exactly, and a
4500-character text yields exactly the chunk lengths 2000, 2000, 500. -/
theorem C4_split_message :
    ∀ text : String,
      (∀ c ∈ split_message text 2000, c.length ≤ 2000) ∧
      String.join (split_message text 2000) = text ∧
      (text.length = 4500 →
        (split_message text 2000).map String.length = [2000, 2000, 500]) := by
  intro text
  refine ⟨?_, ?_, ?_⟩
  · intro c hc
    simp only [split_message, List.mem_map] at hc
    obtain ⟨k, _, rfl⟩ := hc
    rw [mk_length]
    exact List.length_take_le 2000 _
  · apply String.ext
    rw [data_join]
    simp only [split_message, List.map_map]
    have hcomp : (String.data ∘ fun k => String.mk ((text.data.drop (k * 2000)).take 2000)) =
        fun k => (text.data.drop (k * 2000)).take 2000 := rfl
    rw [hcomp]
    apply chunks_flatten 2000
    have hlen : text.length = text.data.length := rfl
    omega
  · intro h45
    have hc : (text.length + 2000 - 1) / 2000 = 3 := by omega
    have hd : text.data.length = 4500 := h45
    simp only [split_message, hc, show List.range 3 = [0, 1, 2] from rfl]
    simp [mk_length, List.length_take, List.length_drop, hd]

theorem C4_split_message_witness :
    (String.mk (List.replicate 4500 'a')).length = 4500 ∧
    (split_message (String.mk (List.replicate 4500 'a')) 2000).map String.length =
      [2000, 2000, 500] :=
  ⟨by rw [mk_length, List.length_replicate],
    (C4_split_message (String.mk (List.replicate 4500 'a'))).2.2
      (by rw [mk_length, List.length_replicate])⟩

/-! ### Word-count invariance lemmas (claim C6) -/

theorem toNat_ofNat_valid (n : Nat) (h : n.isValidChar) : (Char.ofNat n).toNat = n := by
  unfold Char.ofNat
  rw [dif_pos h]
  rfl

theorem isPySpace_ge_65 {c : Char} (h : 65 ≤ c.toNat) : isPySpace c = false := by
  simp only [isPySpace, Bool.or_eq_false_iff, beq_eq_false_iff_ne, ne_eq]
  omega

theorem isPySpace_toLower (c : Char) : isPySpace (Char.toLower c) = isPySpace c := by
  unfold Char.toLower
  dsimp only
  split
  · next h =>
    have hv : (c.toNat + 32).isValidChar := Or.inl (by omega)
    rw [isPySpace_ge_65 (by rw [toNat_ofNat_valid _ hv]; omega),
      isPySpace_ge_65 (by omega)]
  · rfl

theorem pyWordsAux_map (f : Char → Char) (hf : ∀ c, isPySpace (f c) = isPySpace c) :
    ∀ (cs acc : List Char),
      pyWordsAux (cs.map f) (acc.map f) = (pyWordsAux cs acc).map (List.map f) := by
  intro cs
  induction cs with
  | nil =>
    intro acc
    by_cases h : acc = []
    · subst h; simp [pyWordsAux]
    · simp only [List.map_nil, pyWordsAux]
      rw [if_neg (by simpa using h), if_neg h]
      simp
  | cons c cs ih =>
    intro acc
    simp only [List.map_cons, pyWordsAux, hf c]
    by_cases hsp : isPySpace c
    · rw [if_pos hsp, if_pos hsp]
      by_cases h : acc = []
      · subst h
        simpa using ih []
      · have h2 : List.map f acc ≠ [] := by simpa using h
        rw [if_neg h2, if_neg h, List.map_cons]
        congr 1
        · exact (List.map_reverse f acc).symm
        · simpa using ih []
    · rw [if_neg hsp, if_neg hsp]
      exact ih (c :: acc)

theorem pyWords_map_length (cs : List Char) :
    (pyWords (cs.map Char.toLower)).length = (pyWords cs).length := by
  unfold pyWords
  rw [show ([] : List Char) = List.map Char.toLower [] from rfl,
    pyWordsAux_map Char.toLower isPySpace_toLower cs []]
  simp

theorem pyWordsAux_all_space :
    ∀ (t : List Char), (∀ c ∈ t, isPySpace c = true) →
      ∀ acc, pyWordsAux t acc = if acc = [] then [] else [acc.reverse] := by
  intro t
  induction t with
  | nil => intro _ acc; rfl
  | cons d t ih =>
    intro ht acc
    have hd : isPySpace d = true := ht d (by simp)
    have ht' : ∀ c ∈ t, isPySpace c = true := fun c hc => ht c (by simp [hc])
    simp only [pyWordsAux, hd, if_pos]
    by_cases h : acc = []
    · subst h
      rw [if_pos rfl, if_pos rfl, ih ht' []]
      rfl
    · rw [if_neg h, if_neg h, ih ht' []]
      rfl

theorem pyWordsAux_append_space (t : List Char) (ht : ∀ c ∈ t, isPySpace c = true) :
    ∀ (xs acc : List Char), pyWordsAux (xs ++ t) acc = pyWordsAux xs acc := by
  intro xs
  induction xs with
  | nil =>
    intro acc
    rw [List.nil_append, pyWordsAux_all_space t ht acc]
    rfl
  | cons c xs ih =>
    intro acc
    simp only [List.cons_append, pyWordsAux]
    by_cases hsp : isPySpace c
    · rw [if_pos hsp, if_pos hsp]
      by_cases h : acc = []
      · rw [if_pos h, if_pos h]
        exact ih []
      · rw [if_neg h, if_neg h]
        exact congrArg (acc.reverse :: .) (ih [])
    · rw [if_neg hsp, if_neg hsp]
      exact ih (c :: acc)

theorem pyWords_stripR (cs : List Char) : pyWords (pyStripR cs) = pyWords cs := by
  have htail : ∀ c ∈ (cs.reverse.takeWhile isPySpace).reverse, isPySpace c = true := by
    intro c hc
    rw [List.mem_reverse] at hc
    exact List.mem_takeWhile_imp hc
  have hdec : cs = pyStripR cs ++ (cs.reverse.takeWhile isPySpace).reverse := by
    unfold pyStripR
    rw [← List.reverse_append, List.takeWhile_append_dropWhile, List.reverse_reverse]
  conv_rhs => rw [hdec]
  unfold pyWords
  rw [pyWordsAux_append_space _ htail]

theorem pyWords_stripL (cs : List Char) : pyWords (pyStripL cs) = pyWords cs := by
  unfold pyStripL pyWords
  induction cs with
  | nil => rfl
  | cons c cs ih =>
    by_cases hsp : isPySpace c
    · rw [List.dropWhile_cons_of_pos hsp, ih]
      simp [pyWordsAux, hsp]
    · rw [List.dropWhile_cons_of_neg (by simpa using hsp)]

theorem pyWords_strip (cs : List Char) : pyWords (pyStripChars cs) = pyWords cs := by
  unfold pyStripChars
  rw [pyWords_stripL, pyWords_stripR]

theorem token_count_eq (s : String) :
    (pyWords (pyStrip (pyLower s)).data).length = (pyWords s.data).length := by
  show (pyWords (pyStripChars (s.data.map Char.toLower))).length = _
  rw [pyWords_strip, pyWords_map_length]

/-- C6: `is_simple_question` is true exactly when the string has fewer than
10 whitespace-separated tokens or its lowercased, trimmed form starts with
one of the fixed interrogative starters; in particular "What is gravity" is
simple and the given 12-token prompt is not. -/
theorem C6_simple_question :
    (∀ s : String, is_simple_question s = true ↔
      ((pyWords s.data).length < 10 ∨
        ∃ k ∈ simple_keywords, pyStartsWith (pyStrip (pyLower s)) k = true)) ∧
    is_simple_question "What is gravity" = true ∧
    is_simple_question
      "Explain the full historical and philosophical context of relativity theory in depth"
      = false := by
  refine ⟨?_, by decide, by decide⟩
  intro s
  unfold is_simple_question
  dsimp only
  rw [token_count_eq s]
  split
  · next h => simp [h]
  · next h =>
    rw [List.any_eq_true]
    constructor
    · rintro ⟨k, hk, hs⟩
      exact Or.inr ⟨k, hk, hs⟩
    · rintro (hlt | ⟨k, hk, hs⟩)
      · exact absurd hlt h
      · exact ⟨k, hk, hs⟩

/-! ### PDF extraction lemmas (claim C5) -/

theorem stripChars_append_newline (cs : List Char) :
    pyStripChars (cs ++ ['\n']) = pyStripChars cs := by
  unfold pyStripChars pyStripR
  rw [List.reverse_append]
  simp only [List.reverse_cons, List.reverse_nil, List.nil_append, List.singleton_append]
  rw [List.dropWhile_cons_of_pos (by decide)]

theorem pyStrip_append_newline (s : String) : pyStrip (s ++ "\n") = pyStrip s := by
  unfold pyStrip
  rw [String.data_append]
  exact congrArg String.mk (stripChars_append_newline s.data)

theorem pages_fold_eq_join (pages : List String) :
    ∀ acc : String,
      pages.foldl pageFold acc =
        acc ++ String.join ((pages.filter fun p => p ≠ "").map fun p => p ++ "\n") := by
  induction pages with
  | nil => intro acc; simp [String.join]
  | cons p ps ih =>
    intro acc
    rw [List.foldl_cons, List.filter_cons]
    by_cases hp : p = ""
    · rw [show pageFold acc p = acc from by simp [pageFold, hp]]
      rw [if_neg (by simp [hp])]
      exact ih acc
    · rw [show pageFold acc p = acc ++ p ++ "\n" from by simp [pageFold, hp]]
      rw [if_pos (by simp [hp]), List.map_cons, join_cons, ih (acc ++ p ++ "\n")]
      simp only [String.append_assoc]

theorem foldl_sep_shift (ps : List String) :
    ∀ a b : String,
      ps.foldl sepFold (a ++ b) = a ++ ps.foldl sepFold b := by
  induction ps with
  | nil => intro a b; rfl
  | cons r ps ih =>
    intro a b
    rw [List.foldl_cons, List.foldl_cons]
    rw [show sepFold (a ++ b) r = a ++ sepFold b r from by
      simp [sepFold, String.append_assoc]]
    exact ih a (sepFold b r)

theorem join_map_newline (ps : List String) :
    ∀ p : String,
      String.join ((p :: ps).map fun q => q ++ "\n") = (ps.foldl sepFold p) ++ "\n" := by
  induction ps with
  | nil =>
    intro p
    simp [join_cons, String.join]
  | cons q ps ih =>
    intro p
    rw [List.map_cons, join_cons, ih q, List.foldl_cons]
    rw [show sepFold p q = (p ++ "\n") ++ q from by simp [sepFold, String.append_assoc],
      foldl_sep_shift ps (p ++ "\n") q]
    simp only [String.append_assoc]

theorem code_strip_eq_spec_strip (pages : List String) :
    pyStrip (pages.foldl pageFold "") =
      pyStrip (match pages.filter (fun p => p ≠ "") with
        | [] => ""
        | p :: ps => ps.foldl sepFold p) := by
  rw [pages_fold_eq_join pages "", String.empty_append]
  cases hne : pages.filter (fun p => p ≠ "") with
  | nil => rfl
  | cons p ps =>
    rw [join_map_newline ps p, pyStrip_append_newline]

/-- C5: the PDF extractor agrees with the spec reading — nonempty per-page
texts joined by newline and trimmed, a `none` sentinel for an unparsable
document or when nothing is extracted (never an empty-string success, never a
propagated fault: the embedding is a total function into an option); a
document with pages "Hello", "", "World" extracts to "Hello\nWorld". -/
theorem C5_pdf_extract :
    (∀ pdf : Option (List String),
      extract_text_from_pdf pdf =
        match pdf with
        | none => none
        | some pages => extract_text_spec pages) ∧
    extract_text_from_pdf (some ["Hello", "", "World"]) = some "Hello\nWorld" := by
  refine ⟨?_, by decide⟩
  rintro (_ | pages)
  · rfl
  · show extract_text_from_pdf (some pages) = extract_text_spec pages
    unfold extract_text_from_pdf extract_text_spec
    dsimp only
    rw [code_strip_eq_spec_strip pages]

/-! ### Dispatcher path theorems (claims C7, C3, C2) -/

/-- C7: a prompt matching the image-generation pattern makes the dispatcher
reply with the fixed not-supported message and append the synthetic
(user, assistant-refusal) pair, for EVERY LLM oracle — so the LLM is never
consulted; "generate a picture of a cat" matches, "describe a picture" does
not. -/
theorem C7_image_gen :
    (∀ (env : Env) (st : HistMap) (key prompt : String) (sum : Option String),
        is_image_generation_request prompt = true →
        dispatch_prompt env st key prompt sum =
          (updateMap st key (st key ++
              [Turn.mk .user prompt, Turn.mk .assistant "Image generation not supported."]),
            [image_gen_reply])) ∧
    is_image_generation_request "generate a picture of a cat" = true ∧
    is_image_generation_request "describe a picture" = false := by
  refine ⟨?_, by decide, by decide⟩
  intro env st key prompt sum h
  simp [dispatch_prompt, h]

theorem C7_image_gen_witness :
    is_image_generation_request "generate a picture of a cat" = true ∧
    dispatch_prompt ⟨1, fun _ => .error ""⟩ (fun _ => []) "2_3"
        "generate a picture of a cat" none =
      (updateMap (fun _ => []) "2_3"
          [Turn.mk .user "generate a picture of a cat",
            Turn.mk .assistant "Image generation not supported."],
        [image_gen_reply]) :=
  ⟨by decide, C7_image_gen.1 _ _ _ _ _ (by decide)⟩

/-- C3: when the LLM call fails, the dispatcher sends exactly one error
reply — the fixed quota notice when the error text contains "quota" or
"rate" case-insensitively, otherwise the generic notice carrying the error
detail — and the history store is returned unchanged. -/
theorem C3_llm_failure :
    ∀ (env : Env) (st : HistMap) (msg : Message) (p : String) (sum : Option String)
      (e : String),
      msg.authorIsBot = false →
      process_attachments env (initial_prompt_and_flag env msg).1
          (initial_prompt_and_flag env msg).2 msg.attachments = .ok (p, true, sum) →
      p ≠ "" →
      is_image_generation_request p = false →
      env.llm (build_prompt (st (history_key msg)) (pdf_context_prompt sum p)
          (is_simple_question p)) = .error e →
      on_message env st msg = (st,
        [if containsSub (pyLower e) "quota" || containsSub (pyLower e) "rate" then
            "Gemini API quota exceeded. Try again later."
          else "Error with Gemini API: " ++ e]) := by
  intro env st msg p sum e hbot hproc hp himg hllm
  unfold on_message
  rw [if_neg (by simp [hbot])]
  dsimp only
  rw [hproc]
  dsimp only
  rw [if_pos (show (true = true) ∧ p ≠ "" from ⟨rfl, hp⟩)]
  unfold dispatch_prompt
  rw [if_neg (by simp [himg])]
  dsimp only
  rw [hllm]
  rfl

theorem C3_llm_failure_witness :
    on_message ⟨1, fun _ => .error "Rate limit exceeded"⟩ (fun _ => [])
      ⟨false, 2, 3, "hello there", false, true, []⟩ =
    ((fun _ => []), ["Gemini API quota exceeded. Try again later."]) :=
  C3_llm_failure _ _ _ "hello there" none "Rate limit exceeded" rfl rfl
    (by decide) (by decide) rfl

theorem process_attachments_no_image (env : Env) (p : String) :
    ∀ (atts : List Attachment),
      (∀ a ∈ atts, isImageFilename a.filename = false) →
      ∀ (p2 : String) (sp2 : Bool) (sum : Option String),
        process_attachments env p false atts = .ok (p2, sp2, sum) → sp2 = false := by
  intro atts
  induction atts with
  | nil =>
    intro _ p2 sp2 sum h
    simp only [process_attachments, Except.ok.injEq, Prod.mk.injEq] at h
    exact h.2.1.symm
  | cons a atts ih =>
    intro hno p2 sp2 sum h
    simp only [process_attachments] at h
    by_cases hpdf : pyEndsWith (pyLower a.filename) ".pdf"
    · rw [if_pos hpdf] at h
      cases hc : a.content with
      | error e => rw [hc] at h; simp at h
      | ok pdf =>
        rw [hc] at h
        dsimp only at h
        cases hext : extract_text_from_pdf pdf with
        | none => rw [hext] at h; simp at h
        | some t =>
          rw [hext] at h
          dsimp only at h
          cases hsum : summarize_text env.llm t with
          | none => rw [hsum] at h; simp at h
          | some s =>
            rw [hsum] at h
            dsimp only at h
            by_cases hs : s = ""
            · rw [if_pos hs] at h; simp at h
            · rw [if_neg hs] at h
              simp only [Except.ok.injEq, Prod.mk.injEq] at h
              exact h.2.1.symm
    · rw [if_neg hpdf] at h
      rw [if_neg (by simp [hno a (by simp)])] at h
      exact ih (fun b hb => hno b (by simp [hb])) p2 sp2 sum h

/-- C2 counterexample: a message with no trigger and no image attachment is
claimed to be dropped silently regardless of attachments, but an unparsable
PDF attachment still produces an outbound error message (the attachment loop
runs before the trigger guard, bot.py 156-175). -/
theorem C2_counterexample :
    (on_message ⟨1, fun _ => .error ""⟩ (fun _ => [])
        ⟨false, 2, 3, "hello", false, false, [⟨"doc.pdf", .ok none⟩]⟩).2 =
      ["Could not extract text from PDF."] := by decide

/-- C2 (amended): a message from a non-bot author with neither trigger, no
image attachment, and whose attachment processing succeeds (in particular any
message whose PDF attachment is read, extracted and summarized successfully,
or that has no PDF attachment) produces no outbound message and no history
mutation. -/
theorem C2_silent_drop :
    ∀ (env : Env) (st : HistMap) (msg : Message) (p2 : String) (sp2 : Bool)
      (sum : Option String),
      msg.authorIsBot = false → msg.mentionedBot = false → msg.replyToBot = false →
      (∀ a ∈ msg.attachments, isImageFilename a.filename = false) →
      process_attachments env (initial_prompt_and_flag env msg).1
          (initial_prompt_and_flag env msg).2 msg.attachments = .ok (p2, sp2, sum) →
      on_message env st msg = (st, []) := by
  intro env st msg p2 sp2 sum hbot hm hr hno hproc
  have hflag : (initial_prompt_and_flag env msg).2 = false := by
    simp [initial_prompt_and_flag, hm, hr]
  have hsp : sp2 = false := by
    apply process_attachments_no_image env (initial_prompt_and_flag env msg).1
      msg.attachments hno p2 sp2 sum
    rw [← hflag]
    exact hproc
  unfold on_message
  rw [if_neg (by simp [hbot])]
  dsimp only
  rw [hproc]
  dsimp only
  rw [if_neg (by simp [hsp])]

theorem C2_silent_drop_witness :
    on_message ⟨1, fun _ => .error ""⟩ (fun _ => [])
      ⟨false, 2, 3, "hello", false, false, [⟨"notes.txt", .ok none⟩]⟩ =
    ((fun _ => []), []) :=
  C2_silent_drop _ _ _ "hello" false none rfl rfl rfl (by decide) rfl

end GeminiBot
